import Mathlib

/-!
A shallow embedding of the engagement/authorization core of the blog-api
repository (Express + Prisma + PostgreSQL).  The relational store is a
record of row lists; Prisma calls become pure functions over those lists;
operations that Prisma may reject (foreign-key or unique-constraint
violations, deletes of absent rows) return `Except`, and each route
handler's `try/catch` becomes a `match` on that `Except`.

Query/body parameters that the JavaScript code passes through `parseInt`
are modelled as `Option Int`: `none` stands for `NaN` (the result of
parsing a non-numeric string or an absent field), `some n` for the parsed
integer.  JavaScript truthiness of such a number (`!postId`) is `jsTruthy`.
-/

namespace BlogApi

/-- Result of JavaScript `parseInt`: `none` is `NaN`. -/
abbrev JsNum := Option Int

/-- JavaScript truthiness of a `parseInt` result: `NaN` and `0` are falsy,
every other number is truthy. -/
def jsTruthy : JsNum → Bool
  | none => false
  | some n => n != 0

/-- The numeric value a truthy `JsNum` carries (`getD` is only ever used
after a truthiness check, where the value is `some n`). -/
def jsVal (x : JsNum) : Int := x.getD 0

/-- A row of the `users` table (prisma/schema.prisma, model User). -/
structure UserRec where
  id : Int
  email : String
  username : String
  password : String
  firstName : Option String
  lastName : Option String
  createdAt : Int
  updatedAt : Int
deriving Repr, DecidableEq

/-- A row of the `posts` table (prisma/schema.prisma, model Post). -/
structure PostRec where
  id : Int
  title : String
  content : String
  published : Bool
  createdAt : Int
  updatedAt : Int
  authorId : Int
deriving Repr, DecidableEq

/-- A row of any of the four engagement tables `likes`, `saved`, `shared`,
`reads` — the models Like, Save, Share, Read all have exactly the fields
`id`, `createdAt`, `userId`, `postId` and a `@@unique([userId, postId])`
constraint. -/
structure EngRow where
  id : Int
  createdAt : Int
  userId : Int
  postId : Int
deriving Repr, DecidableEq

/-- A row of the `comments` table (model Comment; no uniqueness constraint). -/
structure CommentRow where
  id : Int
  createdAt : Int
  content : String
  userId : Int
  postId : Int
deriving Repr, DecidableEq

/-- The relational store: one list per table, plus the autoincrement
counters the store uses to assign fresh primary keys. -/
structure Store where
  users : List UserRec
  posts : List PostRec
  likes : List EngRow
  saves : List EngRow
  shares : List EngRow
  reads : List EngRow
  comments : List CommentRow
  nextLikeId : Int
  nextSaveId : Int
  nextShareId : Int
  nextReadId : Int
  nextUserId : Int
deriving Repr, DecidableEq

/-- `prisma.post.findUnique({ where: { id } })`. -/
def findPost (posts : List PostRec) (id : Int) : Option PostRec :=
  posts.find? (fun p => p.id == id)

/-- `prisma.user.findUnique({ where: { id } })` (by primary key). -/
def findUser (users : List UserRec) (id : Int) : Option UserRec :=
  users.find? (fun u => u.id == id)

/-- `prisma.<table>.findUnique({ where: { userId_postId: { userId, postId } } })`
on an engagement table. -/
def findEng (rows : List EngRow) (userId postId : Int) : Option EngRow :=
  rows.find? (fun r => r.userId == userId && r.postId == postId)

/-- `prisma.<table>.count({ where: { postId } })` on an engagement table:
a fresh count query over the current rows. -/
def countEng (rows : List EngRow) (postId : Int) : Nat :=
  (rows.filter (fun r => r.postId == postId)).length

/-- `prisma.<table>.create({ data: { userId, postId } })` on an engagement
table.  The store rejects the insert when a foreign key dangles (no such
user or post) or when the `@@unique([userId, postId])` constraint is
violated; the new row otherwise gets the table's next autoincrement id and
`createdAt = now`. -/
def createEng (users : List UserRec) (posts : List PostRec) (rows : List EngRow)
    (nextId : Int) (userId postId now : Int) : Except String (List EngRow) :=
  if (findUser users userId).isNone then
    .error "Foreign key constraint violated on userId"
  else if (findPost posts postId).isNone then
    .error "Foreign key constraint violated on postId"
  else if (findEng rows userId postId).isSome then
    .error "Unique constraint failed on userId_postId"
  else
    .ok (rows ++ [⟨nextId, now, userId, postId⟩])

/-- `prisma.<table>.delete({ where: { id } })` on an engagement table:
removes the row with the given primary key, rejecting when no such row
exists (Prisma error P2025). -/
def deleteEngById (rows : List EngRow) (id : Int) : Except String (List EngRow) :=
  if (rows.find? (fun r => r.id == id)).isSome then
    .ok (rows.filter (fun r => r.id != id))
  else
    .error "Record to delete does not exist"

/-- Response of the like/save/share handlers: `failure status error` is a
`res.status(status).json({ error })`; `success active count` is the
HTTP-200 body `{ success: true, liked/saved/shared: active, …Count: count }`. -/
inductive ToggleOut where
  | failure (status : Nat) (error : String)
  | success (active : Bool) (count : Nat)
deriving Repr, DecidableEq

/-- The body of `router.post('/like')` (src/routes/postRoutes.js:324-371),
up to but excluding the `catch`: validate truthiness of the parsed ids,
look up the post (404 when absent), then delete the existing like row or
create one, and re-count the like rows of the post after the mutation. -/
def likeBody (s : Store) (postIdRaw userIdRaw : JsNum) (now : Int) :
    Except String (ToggleOut × Store) := do
  if !jsTruthy postIdRaw || !jsTruthy userIdRaw then
    return (.failure 400 "postId and userId are required", s)
  let postId := jsVal postIdRaw
  let userId := jsVal userIdRaw
  match findPost s.posts postId with
  | none => return (.failure 404 "Post not found", s)
  | some _ =>
    match findEng s.likes userId postId with
    | some existingLike => do
      let likes ← deleteEngById s.likes existingLike.id
      let s2 := { s with likes := likes }
      return (.success false (countEng s2.likes postId), s2)
    | none => do
      let likes ← createEng s.users s.posts s.likes s.nextLikeId userId postId now
      let s2 := { s with likes := likes, nextLikeId := s.nextLikeId + 1 }
      return (.success true (countEng s2.likes postId), s2)

/-- `router.post('/like')` with its `catch`: an error thrown by the store is
answered with `res.status(400).json({ error: 'Something went wrong', … })`
(src/routes/postRoutes.js:372-378).  The embedding makes the read-only
queries (`findUnique`, `count`) infallible, so its error branch arises only
from the mutation itself and pairs the response with the pre-call store; in
the source, which runs no transaction, a transient failure of the
post-mutation count query would reach the same catch with the mutation
already applied, so no theorem below asserts anything about the catch
branch's store component. -/
def likeHandler (s : Store) (postIdRaw userIdRaw : JsNum) (now : Int) :
    ToggleOut × Store :=
  match likeBody s postIdRaw userIdRaw now with
  | .ok r => r
  | .error _ => (.failure 400 "Something went wrong", s)

/-- The body of `router.post('/save')` (src/routes/postRoutes.js:435-477),
identical in structure to the like handler but over the `saved` table. -/
def saveBody (s : Store) (postIdRaw userIdRaw : JsNum) (now : Int) :
    Except String (ToggleOut × Store) := do
  if !jsTruthy postIdRaw || !jsTruthy userIdRaw then
    return (.failure 400 "Post id and user id are required!", s)
  let postId := jsVal postIdRaw
  let userId := jsVal userIdRaw
  match findPost s.posts postId with
  | none => return (.failure 404 "Post not found!", s)
  | some _ =>
    match findEng s.saves userId postId with
    | some existingSave => do
      let saves ← deleteEngById s.saves existingSave.id
      let s2 := { s with saves := saves }
      return (.success false (countEng s2.saves postId), s2)
    | none => do
      let saves ← createEng s.users s.posts s.saves s.nextSaveId userId postId now
      let s2 := { s with saves := saves, nextSaveId := s.nextSaveId + 1 }
      return (.success true (countEng s2.saves postId), s2)

/-- `router.post('/save')` with its `catch`: a thrown store error is
answered with status 400, `'Something went wrong!'`
(src/routes/postRoutes.js:478-483); the catch branch's store component is
modelled as for the like handler, with the same caveat. -/
def saveHandler (s : Store) (postIdRaw userIdRaw : JsNum) (now : Int) :
    ToggleOut × Store :=
  match saveBody s postIdRaw userIdRaw now with
  | .ok r => r
  | .error _ => (.failure 400 "Something went wrong!", s)

/-- The body of `router.post('/share')` (src/routes/postRoutes.js:529-563):
validate, 404 on absent post, then — guarded by a redundant `if(userId)` —
report `shared = true` when a share row already exists (creating nothing)
or create the row; finally re-count the share rows of the post. -/
def shareBody (s : Store) (postIdRaw userIdRaw : JsNum) (now : Int) :
    Except String (ToggleOut × Store) := do
  if !jsTruthy postIdRaw || !jsTruthy userIdRaw then
    return (.failure 400 "Post id and user id are required", s)
  let postId := jsVal postIdRaw
  let userId := jsVal userIdRaw
  match findPost s.posts postId with
  | none => return (.failure 404 "Post not found", s)
  | some _ => do
    let (shared, s2) ←
      if userId != 0 then
        match findEng s.shares userId postId with
        | some _ => pure (true, s)
        | none => do
          let shares ← createEng s.users s.posts s.shares s.nextShareId userId postId now
          pure (true, { s with shares := shares, nextShareId := s.nextShareId + 1 })
      else
        pure (false, s)
    return (.success shared (countEng s2.shares postId), s2)

/-- `router.post('/share')` with its `catch`: a thrown store error is
answered with status 500, `'Failed to load data'`
(src/routes/postRoutes.js:564-566); the catch branch's store component is
modelled as for the like handler, with the same caveat. -/
def shareHandler (s : Store) (postIdRaw userIdRaw : JsNum) (now : Int) :
    ToggleOut × Store :=
  match shareBody s postIdRaw userIdRaw now with
  | .ok r => r
  | .error _ => (.failure 500 "Failed to load data", s)

/-- Response of the read handler: the HTTP-200 body is
`{ readCount, success: true }` (no active flag). -/
inductive ReadOut where
  | failure (status : Nat) (error : String)
  | success (readCount : Nat)
deriving Repr, DecidableEq

/-- `prisma.read.upsert({ where: { userId_postId }, update: { createdAt: new Date() },
create: { userId, postId } })` (src/routes/postRoutes.js:706-721): when the
row exists, only its `createdAt` is set to `now`; otherwise the row is
created (subject to the same store-level checks as any engagement insert). -/
def readUpsert (s : Store) (userId postId now : Int) : Except String Store :=
  match findEng s.reads userId postId with
  | some _ =>
    .ok { s with reads := s.reads.map (fun r =>
            if r.userId == userId && r.postId == postId then
              { r with createdAt := now }
            else r) }
  | none => do
    let reads ← createEng s.users s.posts s.reads s.nextReadId userId postId now
    .ok { s with reads := reads, nextReadId := s.nextReadId + 1 }

/-- The body of `router.post('/read')` (src/routes/postRoutes.js:685-725):
validate each id separately, 404 on absent post, upsert the read row, then
re-count the read rows of the post. -/
def readBody (s : Store) (postIdRaw userIdRaw : JsNum) (now : Int) :
    Except String (ReadOut × Store) := do
  if !jsTruthy postIdRaw then
    return (.failure 400 "Post id is required", s)
  if !jsTruthy userIdRaw then
    return (.failure 400 "User id is required", s)
  let postId := jsVal postIdRaw
  let userId := jsVal userIdRaw
  match findPost s.posts postId with
  | none => return (.failure 404 "Post not found", s)
  | some _ => do
    let s2 ← readUpsert s userId postId now
    return (.success (countEng s2.reads postId), s2)

/-- `router.post('/read')` with its `catch`: a thrown store error is
answered with status 500, `'Server error'` (src/routes/postRoutes.js:726-728);
the catch branch's store component is modelled as for the like handler,
with the same caveat. -/
def readHandler (s : Store) (postIdRaw userIdRaw : JsNum) (now : Int) :
    ReadOut × Store :=
  match readBody s postIdRaw userIdRaw now with
  | .ok r => r
  | .error _ => (.failure 500 "Server error", s)

/-- Response of the post update/delete handlers: `success p` is the HTTP-200
body (for update, the updated post; for delete, a message — modelled as the
deleted post's absence, carried as `Unit`). -/
inductive UpdateOut where
  | failure (status : Nat) (error : String)
  | success (post : PostRec)
deriving Repr, DecidableEq

/-- Response of the post delete handler. -/
inductive DeleteOut where
  | failure (status : Nat) (error : String)
  | success
deriving Repr, DecidableEq

/-- `prisma.post.update({ where: { id }, data: { title, content, published } })`
where the three data fields come from a destructured request body: a field
that was absent (`undefined`, here `none`) is skipped by the store, a
present one overwrites; `updatedAt` is maintained automatically
(`@updatedAt`). -/
def updatePostRow (p : PostRec) (title content : Option String)
    (published : Option Bool) (now : Int) : PostRec :=
  { p with
    title := title.getD p.title
    content := content.getD p.content
    published := published.getD p.published
    updatedAt := now }

/-- `router.put('/:id')` (src/routes/postRoutes.js:233-281): fetch the post
by id; absent gives 404 `'Post not found'`; a stored `authorId` different
from the authenticated caller (`req.userId`) gives 403
`'You can only update your own posts'`; otherwise the post row is updated
with the supplied partial field set.  `req.params.id` is modelled after
`parseInt`. -/
def putPostHandler (s : Store) (postIdRaw : JsNum) (callerId : Int)
    (title content : Option String) (published : Option Bool) (now : Int) :
    UpdateOut × Store :=
  match postIdRaw with
  | none => (.failure 500 "Failed to update post", s)
  | some postId =>
    match findPost s.posts postId with
    | none => (.failure 404 "Post not found", s)
    | some existingPost =>
      if existingPost.authorId != callerId then
        (.failure 403 "You can only update your own posts", s)
      else
        let updated := updatePostRow existingPost title content published now
        (.success updated,
         { s with posts := s.posts.map (fun p => if p.id == postId then updated else p) })

/-- `prisma.post.delete({ where: { id } })` with the schema's
`onDelete: Cascade` relations: the post row is removed and every like,
save, share, read and comment row referencing it is destroyed with it. -/
def deletePostCascade (s : Store) (postId : Int) : Store :=
  { s with
    posts := s.posts.filter (fun p => p.id != postId)
    likes := s.likes.filter (fun r => r.postId != postId)
    saves := s.saves.filter (fun r => r.postId != postId)
    shares := s.shares.filter (fun r => r.postId != postId)
    reads := s.reads.filter (fun r => r.postId != postId)
    comments := s.comments.filter (fun c => c.postId != postId) }

/-- `router.delete('/:id')` (src/routes/postRoutes.js:286-319): fetch the
post by id; absent gives 404; a stored `authorId` different from the
caller gives 403 `'You can only delete your own posts'`; otherwise the post
is deleted, cascading to its engagement and comment rows. -/
def deletePostHandler (s : Store) (postIdRaw : JsNum) (callerId : Int) :
    DeleteOut × Store :=
  match postIdRaw with
  | none => (.failure 500 "Failed to delete post", s)
  | some postId =>
    match findPost s.posts postId with
    | none => (.failure 404 "Post not found", s)
    | some existingPost =>
      if existingPost.authorId != callerId then
        (.failure 403 "You can only delete your own posts", s)
      else
        (.success, deletePostCascade s postId)

/-- `parseInt(x) || d`: the default applies when the parse is `NaN` or `0`. -/
def jsOrDefault (x : JsNum) (d : Int) : Int :=
  if jsTruthy x then jsVal x else d

/-- The `whereConditions` of `router.get('/')` (src/routes/postRoutes.js:28-38):
when the `published` query parameter is present, a post matches iff its
`published` flag equals `published === 'true'`; when `authorId` is present
(modelled already parsed), the post's `authorId` must equal it. -/
def matchesListFilters (published : Option String) (authorId : Option Int)
    (p : PostRec) : Bool :=
  (match published with
   | none => true
   | some ps => p.published == (ps == "true")) &&
  (match authorId with
   | none => true
   | some a => p.authorId == a)

/-- The comparison of the store's `orderBy: { createdAt: 'desc' }`: `a` may
come before `b` iff `a` is at least as new. -/
def byCreatedDesc (a b : PostRec) : Prop :=
  b.createdAt ≤ a.createdAt

instance : DecidableRel byCreatedDesc :=
  fun a b => (inferInstance : Decidable (b.createdAt ≤ a.createdAt))

instance : IsTotal PostRec byCreatedDesc :=
  ⟨fun a b => le_total b.createdAt a.createdAt⟩

instance : IsTrans PostRec byCreatedDesc :=
  ⟨fun _ _ _ h1 h2 => le_trans h2 h1⟩

/-- `orderBy: { createdAt: 'desc' }`: the rows sorted newest-first. -/
def sortByCreatedDesc (l : List PostRec) : List PostRec :=
  l.insertionSort byCreatedDesc

/-- `Math.ceil(a / b)` for a natural numerator and positive denominator —
the only values the pagination handler meets once `limit` defaults apply. -/
def mathCeilDiv (a b : Nat) : Nat :=
  (a + b - 1) / b

/-- The `pagination` object of the list response. -/
structure PageInfo where
  currentPage : Int
  totalPages : Nat
  totalPosts : Nat
  postsPerPage : Int
  hasNextPage : Bool
  hasPrevPage : Bool
deriving Repr, DecidableEq

/-- The list response: `{ posts, pagination, … }`. -/
structure ListOut where
  posts : List PostRec
  pagination : PageInfo
deriving Repr, DecidableEq

/-- `router.get('/')` (src/routes/postRoutes.js:16-90): `page` and `limit`
default to 1 and 10 through `parseInt(x) || d`; `offset = (page-1)*limit`;
the filtered posts are returned newest-first with `skip: offset,
take: limit`, and the pagination metadata is computed from a count query
with the same filters (`totalPages = Math.ceil(totalPosts/limit)`,
`hasNextPage = page < totalPages`, `hasPrevPage = page > 1`).  Negative
`skip`/`take` values, which the store rejects or treats specially, are
outside the scope of the claims and modelled by `Int.toNat` clamping. -/
def listPostsHandler (s : Store) (pageRaw limitRaw : JsNum)
    (published : Option String) (authorId : Option Int) : ListOut :=
  let page := jsOrDefault pageRaw 1
  let limit := jsOrDefault limitRaw 10
  let offset := (page - 1) * limit
  let filtered := s.posts.filter (matchesListFilters published authorId)
  let posts := ((sortByCreatedDesc filtered).drop offset.toNat).take limit.toNat
  let totalPosts := filtered.length
  let totalPages := mathCeilDiv totalPosts limit.toNat
  { posts := posts
    pagination :=
      { currentPage := page
        totalPages := totalPages
        totalPosts := totalPosts
        postsPerPage := limit
        hasNextPage := page < (totalPages : Int)
        hasPrevPage := page > 1 } }

/-- A JSON value as far as the user-object claims need: strings, numbers,
null. -/
inductive JVal where
  | str (v : String)
  | num (v : Int)
  | nul
deriving Repr, DecidableEq

/-- A nullable string field serialized to JSON. -/
def optStr : Option String → JVal
  | some v => .str v
  | none => .nul

/-- The JavaScript user record as the key/value object Prisma returns,
fields in the model's order — including the `password` column. -/
def userToObj (u : UserRec) : List (String × JVal) :=
  [("id", .num u.id), ("email", .str u.email), ("username", .str u.username),
   ("password", .str u.password), ("firstName", optStr u.firstName),
   ("lastName", optStr u.lastName), ("createdAt", .num u.createdAt),
   ("updatedAt", .num u.updatedAt)]

/-- `const { password: _, ...userWithoutPassword } = user`
(src/routes/userRoutes.js:58,98): rest-spread keeps every property except
`password`. -/
def omitPassword (o : List (String × JVal)) : List (String × JVal) :=
  o.filter (fun kv => kv.1 != "password")

/-- Response of register/login: `success user token` is the 201/200 body
`{ message, user, token }`. -/
inductive AuthOut where
  | failure (status : Nat) (error : String)
  | success (user : List (String × JVal)) (token : String)
deriving Repr, DecidableEq

/-- `prisma.user.findFirst({ where: { OR: [{ email }, { username }] } })`. -/
def findByEmailOrUsername (users : List UserRec) (email username : String) :
    Option UserRec :=
  users.find? (fun u => u.email == email || u.username == username)

/-- `prisma.user.findUnique({ where: { email } })`. -/
def findUserByEmail (users : List UserRec) (email : String) : Option UserRec :=
  users.find? (fun u => u.email == email)

/-- `router.post('/register')` (src/routes/userRoutes.js:20-71): conflict
when a user with the same email or username exists (400); otherwise the
user row is created with the hashed password and the response carries the
new user without its `password` property plus a token.  `hash` and
`genToken` stand for the opaque bcrypt/JWT primitives. -/
def registerHandler (s : Store) (email username password : String)
    (firstName lastName : Option String) (hash : String → String)
    (genToken : Int → String) (now : Int) : AuthOut × Store :=
  match findByEmailOrUsername s.users email username with
  | some _ => (.failure 400 "User with this email or username already exists", s)
  | none =>
    let newUser : UserRec :=
      ⟨s.nextUserId, email, username, hash password, firstName, lastName, now, now⟩
    let s2 := { s with users := s.users ++ [newUser], nextUserId := s.nextUserId + 1 }
    (.success (omitPassword (userToObj newUser)) (genToken newUser.id), s2)

/-- `router.post('/login')` (src/routes/userRoutes.js:74-111): look the user
up by email (401 when absent), verify the password against the stored hash
(401 on mismatch), and answer with the user without its `password` property
plus a token.  `cmp` stands for the opaque bcrypt comparison. -/
def loginHandler (s : Store) (email password : String)
    (cmp : String → String → Bool) (genToken : Int → String) : AuthOut :=
  match findUserByEmail s.users email with
  | none => .failure 401 "Invalid email or password"
  | some user =>
    if cmp password user.password then
      .success (omitPassword (userToObj user)) (genToken user.id)
    else
      .failure 401 "Invalid email or password"

/-- Response of the commented-posts listing. -/
inductive PostsListOut where
  | failure (status : Nat) (error : String)
  | success (posts : List PostRec)
deriving Repr, DecidableEq

/-- The JavaScript dedup filter of `router.get('/:userId/commented-posts')`
(src/routes/userRoutes.js:402-403):
`.filter((post, index, array) => array.findIndex(p => p.id === post.id) === index)`
— the element at position `i` survives iff the first position holding its
post id is `i`. -/
def jsDedupById (l : List PostRec) : List PostRec :=
  (List.range l.length).filterMap (fun i =>
    match l[i]? with
    | some p => if l.findIdx (fun q => q.id == p.id) == i then some p else none
    | none => none)

/-- `router.get('/:userId/commented-posts')` (src/routes/userRoutes.js:380-409):
validate the user id, fetch the user's comments with their joined posts
(the `select` projection is modelled by the full post row; the claim is
about post ids), then apply the findIndex dedup. -/
def commentedPostsHandler (s : Store) (userIdRaw : JsNum) : PostsListOut :=
  if !jsTruthy userIdRaw then
    .failure 400 "User id required"
  else
    let userId := jsVal userIdRaw
    let commented := s.comments.filter (fun c => c.userId == userId)
    let posts := commented.filterMap (fun c => findPost s.posts c.postId)
    .success (jsDedupById posts)

/-- The `user` object of an auth response (empty on failure responses,
which carry no user). -/
def AuthOut.userFields : AuthOut → List (String × JVal)
  | .failure _ _ => []
  | .success u _ => u

/-- The post list of a listing response (empty on failure responses). -/
def PostsListOut.postList : PostsListOut → List PostRec
  | .failure _ _ => []
  | .success l => l

/-- Well-formedness of one engagement table: primary keys are pairwise
distinct, the `@@unique([userId, postId])` constraint holds, and the
autoincrement counter is ahead of every existing key. -/
def WfTable (rows : List EngRow) (nextId : Int) : Prop :=
  rows.Pairwise (fun a b => a.id ≠ b.id) ∧
  rows.Pairwise (fun a b => a.userId ≠ b.userId ∨ a.postId ≠ b.postId) ∧
  ∀ r ∈ rows, r.id < nextId

/-- Store-assigned identifiers are positive (`autoincrement()` starts at 1),
and engagement rows reference existing users — the facts behind the
foreign-key behaviour the validation claims rely on. -/
def PositiveIds (s : Store) : Prop :=
  (∀ u ∈ s.users, 0 < u.id) ∧
  (∀ p ∈ s.posts, 0 < p.id) ∧
  (∀ r ∈ s.likes, 0 < r.userId) ∧
  (∀ r ∈ s.saves, 0 < r.userId)

/-! Concrete fixtures used by witnesses and counterexamples. -/

/-- A registered user. -/
def alice : UserRec :=
  ⟨1, "a@x.com", "alice", "hash-alice", none, none, 0, 0⟩

/-- A second registered user. -/
def bob : UserRec :=
  ⟨2, "b@x.com", "bob", "hash-bob", none, none, 0, 0⟩

/-- A post authored by alice. -/
def post1 : PostRec :=
  ⟨1, "Hello", "World", false, 5, 5, 1⟩

/-- Two users, one post, no engagement rows yet. -/
def baseStore : Store :=
  ⟨[alice, bob], [post1], [], [], [], [], [], 1, 1, 1, 1, 3⟩

/-- `baseStore` after bob has liked post 1. -/
def likedStore : Store :=
  { baseStore with likes := [⟨1, 7, 2, 1⟩], nextLikeId := 2 }

/-- `baseStore` with an existing share and read row for (bob, post 1). -/
def engagedStore : Store :=
  { baseStore with
    shares := [⟨1, 7, 2, 1⟩], nextShareId := 2
    reads := [⟨1, 7, 2, 1⟩], nextReadId := 2 }

/-- 25 published posts by alice, with distinct creation timestamps. -/
def store25 : Store :=
  { baseStore with
    posts := (List.range 25).map (fun i =>
      ⟨(i : Int) + 1, "Hello", "World", true, (i : Int), (i : Int), 1⟩) }

/-! Helper lemmas about the store primitives. -/

theorem countEng_append (l1 l2 : List EngRow) (p : Int) :
    countEng (l1 ++ l2) p = countEng l1 p + countEng l2 p := by
  simp [countEng, List.filter_append]

theorem findEng_some_matches {rows : List EngRow} {u p : Int} {r : EngRow}
    (h : findEng rows u p = some r) : r.userId = u ∧ r.postId = p := by
  have := List.find?_some h
  simpa using this

theorem findEng_some_mem {rows : List EngRow} {u p : Int} {r : EngRow}
    (h : findEng rows u p = some r) : r ∈ rows :=
  List.mem_of_find?_eq_some h

theorem createEng_ok (users : List UserRec) (posts : List PostRec)
    (rows : List EngRow) (nextId u p now : Int)
    (hu : (findUser users u).isSome) (hp : (findPost posts p).isSome)
    (hnone : findEng rows u p = none) :
    createEng users posts rows nextId u p now = .ok (rows ++ [⟨nextId, now, u, p⟩]) := by
  obtain ⟨x, hx⟩ := Option.isSome_iff_exists.mp hu
  obtain ⟨y, hy⟩ := Option.isSome_iff_exists.mp hp
  simp [createEng, hx, hy, hnone]

theorem deleteEngById_of_mem {rows : List EngRow} {r : EngRow} (h : r ∈ rows) :
    deleteEngById rows r.id = .ok (rows.filter (fun x => x.id != r.id)) := by
  unfold deleteEngById
  rw [if_pos]
  rw [List.find?_isSome]
  exact ⟨r, h, by simp⟩

theorem filter_ne_id_eq (rows : List EngRow) (i : Int) (h : ∀ x ∈ rows, x.id ≠ i) :
    rows.filter (fun x => x.id != i) = rows :=
  List.filter_eq_self.mpr (fun x hx => by simpa using h x hx)

theorem findEng_append_single (rows : List EngRow) (row : EngRow) (u p : Int)
    (h : findEng rows u p = none) :
    findEng (rows ++ [row]) u p =
      if row.userId == u && row.postId == p then some row else none := by
  rw [findEng, List.find?_append]
  rw [findEng] at h
  rw [h]
  cases hc : (row.userId == u && row.postId == p) <;> simp [List.find?, hc]

theorem findEng_filter_ne_id {rows : List EngRow} {u p : Int} {r : EngRow}
    (hpw : rows.Pairwise (fun a b => a.userId ≠ b.userId ∨ a.postId ≠ b.postId))
    (h : findEng rows u p = some r) :
    findEng (rows.filter (fun x => x.id != r.id)) u p = none := by
  rw [findEng, List.find?_eq_none]
  intro x hx hmatch
  have hxmem := (List.mem_filter.mp hx).1
  have hxid : x.id ≠ r.id := by simpa using (List.mem_filter.mp hx).2
  have hxup : x.userId = u ∧ x.postId = p := by simpa using hmatch
  have hrup := findEng_some_matches h
  have hrmem := findEng_some_mem h
  have hne : x ≠ r := fun he => hxid (by rw [he])
  have hsym : Symmetric (fun a b : EngRow => a.userId ≠ b.userId ∨ a.postId ≠ b.postId) := by
    intro a b hab
    rcases hab with h1 | h2
    · exact .inl (Ne.symm h1)
    · exact .inr (Ne.symm h2)
  rcases List.Pairwise.forall hsym hpw hxmem hrmem hne with h1 | h2
  · exact h1 (hxup.1.trans hrup.1.symm)
  · exact h2 (hxup.2.trans hrup.2.symm)

theorem countEng_cons (a : EngRow) (l : List EngRow) (p : Int) :
    countEng (a :: l) p = (if a.postId = p then 1 else 0) + countEng l p := by
  by_cases h : a.postId = p <;> (simp [countEng, List.filter_cons, h]; all_goals omega)

theorem countEng_filter_ne_id {rows : List EngRow} {r : EngRow} {p : Int}
    (hids : rows.Pairwise (fun a b => a.id ≠ b.id))
    (hr : r ∈ rows) (hrp : r.postId = p) :
    countEng (rows.filter (fun x => x.id != r.id)) p + 1 = countEng rows p := by
  induction rows with
  | nil => cases hr
  | cons a rest ih =>
    rcases List.pairwise_cons.mp hids with ⟨ha, hrest⟩
    rcases List.mem_cons.mp hr with rfl | hmem
    · have hfix : rest.filter (fun x => x.id != r.id) = rest :=
        filter_ne_id_eq rest r.id (fun x hx => Ne.symm (ha x hx))
      have hdrop : (r :: rest).filter (fun x => x.id != r.id) = rest := by
        rw [List.filter_cons_of_neg (by simp)]
        exact hfix
      rw [hdrop, countEng_cons, if_pos hrp]
      omega
    · have haid : a.id ≠ r.id := ha r hmem
      have hkeep : (a :: rest).filter (fun x => x.id != r.id)
          = a :: rest.filter (fun x => x.id != r.id) := by
        rw [List.filter_cons_of_pos (by simpa using haid)]
      rw [hkeep, countEng_cons, countEng_cons]
      have := ih hrest hmem
      omega

/-! Equation lemmas for the engagement handlers, one per reachable branch. -/

theorem likeHandler_delete {s : Store} {u p now : Int} {r : EngRow}
    (hp0 : p ≠ 0) (hu0 : u ≠ 0)
    (hpost : (findPost s.posts p).isSome)
    (hfind : findEng s.likes u p = some r) :
    likeHandler s (some p) (some u) now =
      (.success false (countEng (s.likes.filter (fun x => x.id != r.id)) p),
       { s with likes := s.likes.filter (fun x => x.id != r.id) }) := by
  obtain ⟨post, hps⟩ := Option.isSome_iff_exists.mp hpost
  have hdel := deleteEngById_of_mem (findEng_some_mem hfind)
  unfold likeHandler likeBody
  simp [jsTruthy, jsVal, hp0, hu0, hps, hfind, hdel]

theorem likeHandler_create {s : Store} {u p now : Int}
    (hp0 : p ≠ 0) (hu0 : u ≠ 0)
    (hu : (findUser s.users u).isSome)
    (hpost : (findPost s.posts p).isSome)
    (hfind : findEng s.likes u p = none) :
    likeHandler s (some p) (some u) now =
      (.success true (countEng (s.likes ++ [⟨s.nextLikeId, now, u, p⟩]) p),
       { s with likes := s.likes ++ [⟨s.nextLikeId, now, u, p⟩],
                nextLikeId := s.nextLikeId + 1 }) := by
  obtain ⟨post, hps⟩ := Option.isSome_iff_exists.mp hpost
  have hcr := createEng_ok s.users s.posts s.likes s.nextLikeId u p now hu hpost hfind
  unfold likeHandler likeBody
  simp [jsTruthy, jsVal, hp0, hu0, hps, hfind, hcr]

theorem saveHandler_delete {s : Store} {u p now : Int} {r : EngRow}
    (hp0 : p ≠ 0) (hu0 : u ≠ 0)
    (hpost : (findPost s.posts p).isSome)
    (hfind : findEng s.saves u p = some r) :
    saveHandler s (some p) (some u) now =
      (.success false (countEng (s.saves.filter (fun x => x.id != r.id)) p),
       { s with saves := s.saves.filter (fun x => x.id != r.id) }) := by
  obtain ⟨post, hps⟩ := Option.isSome_iff_exists.mp hpost
  have hdel := deleteEngById_of_mem (findEng_some_mem hfind)
  unfold saveHandler saveBody
  simp [jsTruthy, jsVal, hp0, hu0, hps, hfind, hdel]

theorem saveHandler_create {s : Store} {u p now : Int}
    (hp0 : p ≠ 0) (hu0 : u ≠ 0)
    (hu : (findUser s.users u).isSome)
    (hpost : (findPost s.posts p).isSome)
    (hfind : findEng s.saves u p = none) :
    saveHandler s (some p) (some u) now =
      (.success true (countEng (s.saves ++ [⟨s.nextSaveId, now, u, p⟩]) p),
       { s with saves := s.saves ++ [⟨s.nextSaveId, now, u, p⟩],
                nextSaveId := s.nextSaveId + 1 }) := by
  obtain ⟨post, hps⟩ := Option.isSome_iff_exists.mp hpost
  have hcr := createEng_ok s.users s.posts s.saves s.nextSaveId u p now hu hpost hfind
  unfold saveHandler saveBody
  simp [jsTruthy, jsVal, hp0, hu0, hps, hfind, hcr]

theorem shareHandler_noop {s : Store} {u p now : Int} {r : EngRow}
    (hp0 : p ≠ 0) (hu0 : u ≠ 0)
    (hpost : (findPost s.posts p).isSome)
    (hfind : findEng s.shares u p = some r) :
    shareHandler s (some p) (some u) now =
      (.success true (countEng s.shares p), s) := by
  obtain ⟨post, hps⟩ := Option.isSome_iff_exists.mp hpost
  unfold shareHandler shareBody
  simp [jsTruthy, jsVal, hp0, hu0, hps, hfind, pure, Except.pure, bind, Except.bind]

theorem shareHandler_create {s : Store} {u p now : Int}
    (hp0 : p ≠ 0) (hu0 : u ≠ 0)
    (hu : (findUser s.users u).isSome)
    (hpost : (findPost s.posts p).isSome)
    (hfind : findEng s.shares u p = none) :
    shareHandler s (some p) (some u) now =
      (.success true (countEng (s.shares ++ [⟨s.nextShareId, now, u, p⟩]) p),
       { s with shares := s.shares ++ [⟨s.nextShareId, now, u, p⟩],
                nextShareId := s.nextShareId + 1 }) := by
  obtain ⟨post, hps⟩ := Option.isSome_iff_exists.mp hpost
  have hcr := createEng_ok s.users s.posts s.shares s.nextShareId u p now hu hpost hfind
  unfold shareHandler shareBody
  simp [jsTruthy, jsVal, hp0, hu0, hps, hfind, hcr]

theorem readHandler_touch {s : Store} {u p now : Int} {r : EngRow}
    (hp0 : p ≠ 0) (hu0 : u ≠ 0)
    (hpost : (findPost s.posts p).isSome)
    (hfind : findEng s.reads u p = some r) :
    readHandler s (some p) (some u) now =
      (.success (countEng (s.reads.map (fun x =>
          if x.userId == u && x.postId == p then { x with createdAt := now } else x)) p),
       { s with reads := s.reads.map (fun x =>
          if x.userId == u && x.postId == p then { x with createdAt := now } else x) }) := by
  obtain ⟨post, hps⟩ := Option.isSome_iff_exists.mp hpost
  unfold readHandler readBody readUpsert
  simp [jsTruthy, jsVal, hp0, hu0, hps, hfind, pure, Except.pure, bind, Except.bind]

/-! Claim theorems. -/

/-- C1: For every user `u` and existing post `p`, one call of the like/save
toggle satisfies: if an engagement row for `(u, p)` exists before the call,
the row is destroyed and the result has `active = false`; if no row exists,
a row is created and the result has `active = true`; in both cases the
returned total count equals a fresh count of the engagement rows for `p`
taken after the mutation. -/
theorem toggle_destroys_or_creates_and_recounts (s : Store) (u p now : Int)
    (hu0 : u ≠ 0) (hp0 : p ≠ 0)
    (hu : (findUser s.users u).isSome) (hp : (findPost s.posts p).isSome)
    (hwl : WfTable s.likes s.nextLikeId) (hws : WfTable s.saves s.nextSaveId) :
    ((∀ r, findEng s.likes u p = some r →
        (likeHandler s (some p) (some u) now).1
            = .success false (countEng (likeHandler s (some p) (some u) now).2.likes p) ∧
        findEng (likeHandler s (some p) (some u) now).2.likes u p = none) ∧
     (findEng s.likes u p = none →
        (likeHandler s (some p) (some u) now).1
            = .success true (countEng (likeHandler s (some p) (some u) now).2.likes p) ∧
        (findEng (likeHandler s (some p) (some u) now).2.likes u p).isSome)) ∧
    ((∀ r, findEng s.saves u p = some r →
        (saveHandler s (some p) (some u) now).1
            = .success false (countEng (saveHandler s (some p) (some u) now).2.saves p) ∧
        findEng (saveHandler s (some p) (some u) now).2.saves u p = none) ∧
     (findEng s.saves u p = none →
        (saveHandler s (some p) (some u) now).1
            = .success true (countEng (saveHandler s (some p) (some u) now).2.saves p) ∧
        (findEng (saveHandler s (some p) (some u) now).2.saves u p).isSome)) := by
  refine ⟨⟨fun r hr => ?_, fun hn => ?_⟩, ⟨fun r hr => ?_, fun hn => ?_⟩⟩
  · rw [likeHandler_delete hp0 hu0 hp hr]
    exact ⟨rfl, findEng_filter_ne_id hwl.2.1 hr⟩
  · rw [likeHandler_create hp0 hu0 hu hp hn]
    refine ⟨rfl, ?_⟩
    rw [findEng_append_single _ _ _ _ hn]
    simp
  · rw [saveHandler_delete hp0 hu0 hp hr]
    exact ⟨rfl, findEng_filter_ne_id hws.2.1 hr⟩
  · rw [saveHandler_create hp0 hu0 hu hp hn]
    refine ⟨rfl, ?_⟩
    rw [findEng_append_single _ _ _ _ hn]
    simp

/-- Witness for C1: bob (user 2) likes and saves post 1 of `baseStore`,
where no engagement row exists yet: both calls report `active = true` with
the freshly-recomputed count. -/
theorem toggle_destroys_or_creates_and_recounts_witness :
    (likeHandler baseStore (some 1) (some 2) 10).1
        = .success true (countEng (likeHandler baseStore (some 1) (some 2) 10).2.likes 1) ∧
    (saveHandler baseStore (some 1) (some 2) 10).1
        = .success true (countEng (saveHandler baseStore (some 1) (some 2) 10).2.saves 1) := by
  have h := toggle_destroys_or_creates_and_recounts baseStore 2 1 10
    (by decide) (by decide) (by decide) (by decide)
    (by constructor <;> simp [baseStore]) (by constructor <;> simp [baseStore])
  exact ⟨(h.1.2 (by decide)).1, (h.2.2 (by decide)).1⟩

/-- C3: For every post id and authenticated caller, update and delete first
fetch the post: absent gives 404 and the store is untouched; present with a
stored `authorId` different from the caller gives 403 and the store —
including the post and, for delete, its engagement rows — is untouched, so
a non-author request never silently succeeds. -/
theorem update_delete_ownership_guard (s : Store) (pid callerId : Int)
    (title content : Option String) (published : Option Bool) (now : Int) :
    (findPost s.posts pid = none →
      putPostHandler s (some pid) callerId title content published now
          = (.failure 404 "Post not found", s) ∧
      deletePostHandler s (some pid) callerId = (.failure 404 "Post not found", s)) ∧
    (∀ post, findPost s.posts pid = some post → post.authorId ≠ callerId →
      putPostHandler s (some pid) callerId title content published now
          = (.failure 403 "You can only update your own posts", s) ∧
      deletePostHandler s (some pid) callerId
          = (.failure 403 "You can only delete your own posts", s)) := by
  constructor
  · intro h
    constructor <;> simp [putPostHandler, deletePostHandler, h]
  · intro post h hne
    constructor <;> simp [putPostHandler, deletePostHandler, h, hne]

/-- Witness for C3: in `baseStore`, updating or deleting the nonexistent
post 99 gives 404, and bob (caller 2) updating or deleting alice's post 1
gives 403, with the store unchanged each time. -/
theorem update_delete_ownership_guard_witness :
    (putPostHandler baseStore (some 99) 2 none none none 0
        = (.failure 404 "Post not found", baseStore) ∧
     deletePostHandler baseStore (some 99) 2 = (.failure 404 "Post not found", baseStore)) ∧
    (putPostHandler baseStore (some 1) 2 none none none 0
        = (.failure 403 "You can only update your own posts", baseStore) ∧
     deletePostHandler baseStore (some 1) 2
        = (.failure 403 "You can only delete your own posts", baseStore)) := by
  refine ⟨(update_delete_ownership_guard baseStore 99 2 none none none 0).1 (by decide),
          (update_delete_ownership_guard baseStore 1 2 none none none 0).2 post1 (by decide)
            (by decide)⟩

/-- C4: For every user `u` and existing post `p`, calling the share record
operation twice for the same `(u, p)` leaves the share count unchanged
after the first call and reports `active = true` on both calls; the second
call creates no new row, and the at-most-one-share-row-per-pair invariant
is preserved. -/
theorem share_record_once (s : Store) (u p now1 now2 : Int)
    (hu0 : u ≠ 0) (hp0 : p ≠ 0)
    (hu : (findUser s.users u).isSome) (hp : (findPost s.posts p).isSome) :
    (∃ c,
      (shareHandler s (some p) (some u) now1).1 = .success true c ∧
      (shareHandler (shareHandler s (some p) (some u) now1).2 (some p) (some u) now2).1
          = .success true c) ∧
    (shareHandler (shareHandler s (some p) (some u) now1).2 (some p) (some u) now2).2.shares
        = (shareHandler s (some p) (some u) now1).2.shares ∧
    (s.shares.Pairwise (fun a b => a.userId ≠ b.userId ∨ a.postId ≠ b.postId) →
      (shareHandler s (some p) (some u) now1).2.shares.Pairwise
        (fun a b => a.userId ≠ b.userId ∨ a.postId ≠ b.postId)) := by
  cases hfind : findEng s.shares u p with
  | some r =>
    rw [shareHandler_noop hp0 hu0 hp hfind, shareHandler_noop hp0 hu0 hp hfind]
    exact ⟨⟨countEng s.shares p, rfl, rfl⟩, rfl, fun h => h⟩
  | none =>
    rw [shareHandler_create hp0 hu0 hu hp hfind]
    have hfind2 : findEng (s.shares ++ [⟨s.nextShareId, now1, u, p⟩]) u p
        = some ⟨s.nextShareId, now1, u, p⟩ := by
      rw [findEng_append_single _ _ _ _ hfind]
      simp
    rw [shareHandler_noop (s := { s with
        shares := s.shares ++ [⟨s.nextShareId, now1, u, p⟩],
        nextShareId := s.nextShareId + 1 }) hp0 hu0 hp hfind2]
    refine ⟨⟨countEng (s.shares ++ [⟨s.nextShareId, now1, u, p⟩]) p, rfl, rfl⟩, rfl, fun h => ?_⟩
    rw [List.pairwise_append]
    refine ⟨h, by simp, ?_⟩
    intro x hx y hy
    rw [findEng, List.find?_eq_none] at hfind
    have := hfind x hx
    rcases List.mem_singleton.mp hy with rfl
    simp only [Bool.and_eq_true, beq_iff_eq, not_and] at this
    by_cases hxu : x.userId = u
    · exact .inr (fun hc => this hxu (by simpa using hc))
    · exact .inl (fun hc => hxu (by simpa using hc))

/-- Witness for C4: bob shares post 1 of `baseStore` twice; both calls
report `active = true` with the same count, and the second call leaves the
share table unchanged. -/
theorem share_record_once_witness :
    (∃ c,
      (shareHandler baseStore (some 1) (some 2) 10).1 = .success true c ∧
      (shareHandler (shareHandler baseStore (some 1) (some 2) 10).2 (some 1) (some 2) 20).1
          = .success true c) ∧
    (shareHandler (shareHandler baseStore (some 1) (some 2) 10).2 (some 1) (some 2) 20).2.shares
        = (shareHandler baseStore (some 1) (some 2) 10).2.shares := by
  have h := share_record_once baseStore 2 1 10 20 (by decide) (by decide) (by decide) (by decide)
  exact ⟨h.1, h.2.1⟩

/-- C5: On a repeat call for an already-recorded `(u, p)` pair, the read
record operation refreshes the existing row's `createdAt` while keeping
the row's other fields (and every other row) unchanged, whereas the share
record operation leaves the whole store — including the original share
row's timestamp — entirely untouched. -/
theorem read_touches_share_untouched (s : Store) (u p now : Int)
    (hu0 : u ≠ 0) (hp0 : p ≠ 0) (hp : (findPost s.posts p).isSome)
    (hread : (findEng s.reads u p).isSome)
    (hshare : (findEng s.shares u p).isSome) :
    ((readHandler s (some p) (some u) now).2.reads
        = s.reads.map (fun x =>
            if x.userId == u && x.postId == p then { x with createdAt := now } else x) ∧
     (∀ x ∈ s.reads, x.userId = u → x.postId = p →
        ({ x with createdAt := now } : EngRow) ∈ (readHandler s (some p) (some u) now).2.reads) ∧
     (∀ x ∈ s.reads, ¬(x.userId = u ∧ x.postId = p) →
        x ∈ (readHandler s (some p) (some u) now).2.reads)) ∧
    (shareHandler s (some p) (some u) now).2 = s ∧
    (shareHandler s (some p) (some u) now).1 = .success true (countEng s.shares p) := by
  obtain ⟨r, hr⟩ := Option.isSome_iff_exists.mp hread
  obtain ⟨q, hq⟩ := Option.isSome_iff_exists.mp hshare
  rw [readHandler_touch hp0 hu0 hp hr, shareHandler_noop hp0 hu0 hp hq]
  refine ⟨⟨rfl, ?_, ?_⟩, rfl, rfl⟩
  · intro x hx hxu hxp
    have := List.mem_map_of_mem (fun x : EngRow =>
      if x.userId == u && x.postId == p then { x with createdAt := now } else x) hx
    simpa [hxu, hxp] using this
  · intro x hx hnot
    have := List.mem_map_of_mem (fun x : EngRow =>
      if x.userId == u && x.postId == p then { x with createdAt := now } else x) hx
    have hcond : (x.userId == u && x.postId == p) = false := by
      rcases Decidable.not_and_iff_or_not.mp hnot with h1 | h1 <;> simp [h1]
    simpa [hcond] using this

/-- Witness for C5: in `engagedStore` bob has already shared and read post
1; a repeat read refreshes the read row's timestamp and a repeat share
leaves the store untouched. -/
theorem read_touches_share_untouched_witness :
    (readHandler engagedStore (some 1) (some 2) 99).2.reads
        = engagedStore.reads.map (fun x =>
            if x.userId == 2 && x.postId == 1 then { x with createdAt := 99 } else x) ∧
    (shareHandler engagedStore (some 1) (some 2) 99).2 = engagedStore := by
  have h := read_touches_share_untouched engagedStore 2 1 99
    (by decide) (by decide) (by decide) (by decide) (by decide)
  exact ⟨h.1.1, h.2.1⟩

/-- C2 (amended): For every user `u` and existing post `p`, two sequential
toggle calls (like, and likewise save) return the engagement state for
`(u, p)` to its original state — active iff it was active before — with
the count equal to the original count; calling once from an inactive state
yields `active = true` and a count one greater than the baseline, and the
pair of calls then restores the engagement table exactly. -/
theorem toggle_pair_restores (s : Store) (u p now1 now2 : Int)
    (hu0 : u ≠ 0) (hp0 : p ≠ 0)
    (hu : (findUser s.users u).isSome) (hp : (findPost s.posts p).isSome)
    (hwl : WfTable s.likes s.nextLikeId) (hws : WfTable s.saves s.nextSaveId) :
    ((findEng (likeHandler (likeHandler s (some p) (some u) now1).2
        (some p) (some u) now2).2.likes u p).isSome
      = (findEng s.likes u p).isSome ∧
    countEng (likeHandler (likeHandler s (some p) (some u) now1).2
        (some p) (some u) now2).2.likes p
      = countEng s.likes p ∧
    (findEng s.likes u p = none →
      (likeHandler s (some p) (some u) now1).1 = .success true (countEng s.likes p + 1) ∧
      (likeHandler (likeHandler s (some p) (some u) now1).2
          (some p) (some u) now2).2.likes = s.likes)) ∧
    ((findEng (saveHandler (saveHandler s (some p) (some u) now1).2
        (some p) (some u) now2).2.saves u p).isSome
      = (findEng s.saves u p).isSome ∧
    countEng (saveHandler (saveHandler s (some p) (some u) now1).2
        (some p) (some u) now2).2.saves p
      = countEng s.saves p ∧
    (findEng s.saves u p = none →
      (saveHandler s (some p) (some u) now1).1 = .success true (countEng s.saves p + 1) ∧
      (saveHandler (saveHandler s (some p) (some u) now1).2
          (some p) (some u) now2).2.saves = s.saves)) := by
  constructor
  · cases hfind : findEng s.likes u p with
    | some r =>
      have hrup := findEng_some_matches hfind
      have hrmem := findEng_some_mem hfind
      rw [likeHandler_delete hp0 hu0 hp hfind]
      have hfind2 : findEng (s.likes.filter (fun x => x.id != r.id)) u p = none :=
        findEng_filter_ne_id hwl.2.1 hfind
      rw [likeHandler_create (s := { s with likes := s.likes.filter (fun x => x.id != r.id) })
          hp0 hu0 hu hp hfind2]
      refine ⟨?_, ?_, ?_⟩
      · rw [findEng_append_single _ _ _ _ hfind2]
        simp
      · rw [countEng_append]
        have hone : countEng [(⟨s.nextLikeId, now2, u, p⟩ : EngRow)] p = 1 := by
          simp [countEng]
        rw [hone, countEng_filter_ne_id hwl.1 hrmem hrup.2]
      · intro hn
        simp at hn
    | none =>
      rw [likeHandler_create hp0 hu0 hu hp hfind]
      have hfind2 : findEng (s.likes ++ [⟨s.nextLikeId, now1, u, p⟩]) u p
          = some ⟨s.nextLikeId, now1, u, p⟩ := by
        rw [findEng_append_single _ _ _ _ hfind]
        simp
      rw [likeHandler_delete (s := { s with
          likes := s.likes ++ [⟨s.nextLikeId, now1, u, p⟩],
          nextLikeId := s.nextLikeId + 1 }) hp0 hu0 hp hfind2]
      have hrestore : (s.likes ++ [(⟨s.nextLikeId, now1, u, p⟩ : EngRow)]).filter
          (fun x => x.id != (⟨s.nextLikeId, now1, u, p⟩ : EngRow).id) = s.likes := by
        rw [List.filter_append,
          filter_ne_id_eq s.likes _ (fun x hx => ne_of_lt (hwl.2.2 x hx))]
        simp
      refine ⟨?_, ?_, fun _ => ⟨?_, ?_⟩⟩
      · rw [hrestore, hfind]
      · rw [hrestore]
      · rw [countEng_append]
        have hone : countEng [(⟨s.nextLikeId, now1, u, p⟩ : EngRow)] p = 1 := by
          simp [countEng]
        rw [hone]
      · exact hrestore
  · cases hfind : findEng s.saves u p with
    | some r =>
      have hrup := findEng_some_matches hfind
      have hrmem := findEng_some_mem hfind
      rw [saveHandler_delete hp0 hu0 hp hfind]
      have hfind2 : findEng (s.saves.filter (fun x => x.id != r.id)) u p = none :=
        findEng_filter_ne_id hws.2.1 hfind
      rw [saveHandler_create (s := { s with saves := s.saves.filter (fun x => x.id != r.id) })
          hp0 hu0 hu hp hfind2]
      refine ⟨?_, ?_, ?_⟩
      · rw [findEng_append_single _ _ _ _ hfind2]
        simp
      · rw [countEng_append]
        have hone : countEng [(⟨s.nextSaveId, now2, u, p⟩ : EngRow)] p = 1 := by
          simp [countEng]
        rw [hone, countEng_filter_ne_id hws.1 hrmem hrup.2]
      · intro hn
        simp at hn
    | none =>
      rw [saveHandler_create hp0 hu0 hu hp hfind]
      have hfind2 : findEng (s.saves ++ [⟨s.nextSaveId, now1, u, p⟩]) u p
          = some ⟨s.nextSaveId, now1, u, p⟩ := by
        rw [findEng_append_single _ _ _ _ hfind]
        simp
      rw [saveHandler_delete (s := { s with
          saves := s.saves ++ [⟨s.nextSaveId, now1, u, p⟩],
          nextSaveId := s.nextSaveId + 1 }) hp0 hu0 hp hfind2]
      have hrestore : (s.saves ++ [(⟨s.nextSaveId, now1, u, p⟩ : EngRow)]).filter
          (fun x => x.id != (⟨s.nextSaveId, now1, u, p⟩ : EngRow).id) = s.saves := by
        rw [List.filter_append,
          filter_ne_id_eq s.saves _ (fun x hx => ne_of_lt (hws.2.2 x hx))]
        simp
      refine ⟨?_, ?_, fun _ => ⟨?_, ?_⟩⟩
      · rw [hrestore, hfind]
      · rw [hrestore]
      · rw [countEng_append]
        have hone : countEng [(⟨s.nextSaveId, now1, u, p⟩ : EngRow)] p = 1 := by
          simp [countEng]
        rw [hone]
      · exact hrestore

/-- Counterexample for C2: in `likedStore` bob already likes post 1; the
claim would require two sequential toggles to end with the engagement
state inactive, yet after the pair the row for (bob, post 1) exists again
and the second call itself reported `active = true`. -/
theorem like_toggle_pair_counterexample :
    (findEng (likeHandler (likeHandler likedStore (some 1) (some 2) 10).2
        (some 1) (some 2) 20).2.likes 2 1).isSome = true ∧
    (likeHandler (likeHandler likedStore (some 1) (some 2) 10).2
        (some 1) (some 2) 20).1 = .success true 1 := by
  decide

/-- Witness for C2: starting from `baseStore`, where bob does not yet like
post 1, one toggle reports `active = true` with count 1 = 0 + 1, and the
pair of toggles restores the like table and the inactive state. -/
theorem toggle_pair_restores_witness :
    (findEng (likeHandler (likeHandler baseStore (some 1) (some 2) 10).2
        (some 1) (some 2) 20).2.likes 2 1).isSome
      = (findEng baseStore.likes 2 1).isSome ∧
    (likeHandler baseStore (some 1) (some 2) 10).1
      = .success true (countEng baseStore.likes 1 + 1) ∧
    (saveHandler baseStore (some 1) (some 2) 10).1
      = .success true (countEng baseStore.saves 1 + 1) := by
  have h := toggle_pair_restores baseStore 2 1 10 20
    (by decide) (by decide) (by decide) (by decide)
    (by constructor <;> simp [baseStore]) (by constructor <;> simp [baseStore])
  exact ⟨h.1.1, (h.1.2.2 (by decide)).1, (h.2.2.2 (by decide)).1⟩

/-- The integer formula `(a + t - 1) / t` used for `totalPages` computes the
exact rational ceiling of `a / t` for every positive divisor. -/
theorem mathCeilDiv_eq_ceil (a t : Nat) (ht : 0 < t) :
    ((mathCeilDiv a t : Nat) : ℤ) = ⌈(a : ℚ) / (t : ℚ)⌉ := by
  have hq : mathCeilDiv a t = a ⌈/⌉ t := (Nat.ceilDiv_eq_add_pred_div a t).symm
  rw [hq]
  set q := a ⌈/⌉ t with hqd
  have hA : a ≤ t * q := (ceilDiv_le_iff_le_mul ht).mp le_rfl
  have htQ : (0 : ℚ) < (t : ℚ) := by exact_mod_cast ht
  rcases Nat.eq_zero_or_pos q with hq0 | hq1
  · have ha : a = 0 := by
      rw [hq0, Nat.mul_zero] at hA
      omega
    rw [hq0, ha]
    simp
  · have hB : t * (q - 1) < a := by
      by_contra hcon
      push_neg at hcon
      have : q ≤ q - 1 := (ceilDiv_le_iff_le_mul ht).mpr hcon
      omega
    have hAQ : (a : ℚ) / (t : ℚ) ≤ (q : ℚ) := by
      rw [div_le_iff₀ htQ]
      calc (a : ℚ) ≤ (t : ℚ) * (q : ℚ) := by exact_mod_cast hA
        _ = (q : ℚ) * (t : ℚ) := mul_comm _ _
    have hBQ : (q : ℚ) - 1 < (a : ℚ) / (t : ℚ) := by
      rw [lt_div_iff₀ htQ]
      have hcast : (t : ℚ) * ((q - 1 : ℕ) : ℚ) < (a : ℚ) := by exact_mod_cast hB
      have hc : ((q - 1 : ℕ) : ℚ) = (q : ℚ) - 1 := by
        rw [Nat.cast_sub hq1, Nat.cast_one]
      rw [hc] at hcast
      calc ((q : ℚ) - 1) * (t : ℚ) = (t : ℚ) * ((q : ℚ) - 1) := mul_comm _ _
        _ < (a : ℚ) := hcast
    symm
    rw [Int.ceil_eq_iff]
    constructor
    · exact_mod_cast hBQ
    · exact_mod_cast hAQ

/-- C6: For every page ≥ 1, limit ≥ 1 and filter combination, the post list
operation skips exactly `(page-1)*limit` items of the newest-first order,
returns at most `limit` items that are ordered newest-first, and reports
`totalPages = ⌈totalPosts/limit⌉`, `hasNextPage = (page < totalPages)` and
`hasPrevPage = (page > 1)`. -/
theorem listPosts_pagination_correct (s : Store) (page limit : Int)
    (published : Option String) (authorId : Option Int)
    (hpage : 1 ≤ page) (hlimit : 1 ≤ limit) :
    (listPostsHandler s (some page) (some limit) published authorId).posts
        = ((sortByCreatedDesc (s.posts.filter (matchesListFilters published authorId))).drop
            ((page - 1) * limit).toNat).take limit.toNat ∧
    (listPostsHandler s (some page) (some limit) published authorId).posts.length
        ≤ limit.toNat ∧
    (listPostsHandler s (some page) (some limit) published authorId).posts.Pairwise
        byCreatedDesc ∧
    ((listPostsHandler s (some page) (some limit) published authorId).pagination.totalPages : ℤ)
        = ⌈((s.posts.filter (matchesListFilters published authorId)).length : ℚ) / (limit : ℚ)⌉ ∧
    (listPostsHandler s (some page) (some limit) published authorId).pagination.totalPosts
        = (s.posts.filter (matchesListFilters published authorId)).length ∧
    (listPostsHandler s (some page) (some limit) published authorId).pagination.currentPage
        = page ∧
    (listPostsHandler s (some page) (some limit) published authorId).pagination.postsPerPage
        = limit ∧
    (listPostsHandler s (some page) (some limit) published authorId).pagination.hasNextPage
        = decide (page < ((listPostsHandler s (some page) (some limit) published
            authorId).pagination.totalPages : Int)) ∧
    (listPostsHandler s (some page) (some limit) published authorId).pagination.hasPrevPage
        = decide (1 < page) := by
  have hp0 : page ≠ 0 := by omega
  have hl0 : limit ≠ 0 := by omega
  have hred : jsOrDefault (some page) 1 = page := by
    simp [jsOrDefault, jsTruthy, jsVal, hp0]
  have hredl : jsOrDefault (some limit) 10 = limit := by
    simp [jsOrDefault, jsTruthy, jsVal, hl0]
  have htn : 0 < limit.toNat := by omega
  have hcastl : ((limit.toNat : ℕ) : ℚ) = (limit : ℚ) := by
    have := Int.toNat_of_nonneg (by omega : (0 : Int) ≤ limit)
    exact_mod_cast congrArg (fun z : Int => (z : ℚ)) this
  simp only [listPostsHandler, hred, hredl]
  refine ⟨by trivial, List.length_take_le _ _, ?_, ?_, by trivial, by trivial, by trivial,
    by trivial, by trivial⟩
  · exact List.Pairwise.sublist ((List.take_sublist _ _).trans (List.drop_sublist _ _))
      (List.sorted_insertionSort byCreatedDesc _)
  · rw [mathCeilDiv_eq_ceil _ _ htn, hcastl]

/-- Witness for C6: with 25 matching posts and limit 10, page 3 reports
`totalPages = 3`, `hasNextPage = false`, `hasPrevPage = true`, and
`totalPages` agrees with the rational ceiling `⌈25/10⌉`. -/
theorem listPosts_pagination_correct_witness :
    (listPostsHandler store25 (some 3) (some 10) none none).pagination.totalPages = 3 ∧
    (listPostsHandler store25 (some 3) (some 10) none none).pagination.totalPosts = 25 ∧
    (listPostsHandler store25 (some 3) (some 10) none none).pagination.hasNextPage = false ∧
    (listPostsHandler store25 (some 3) (some 10) none none).pagination.hasPrevPage = true ∧
    ((listPostsHandler store25 (some 3) (some 10) none none).pagination.totalPages : ℤ)
        = ⌈((store25.posts.filter (matchesListFilters none none)).length : ℚ)
            / ((10 : Int) : ℚ)⌉ := by
  refine ⟨by decide, by decide, by decide, by decide, ?_⟩
  exact (listPosts_pagination_correct store25 3 10 none none
    (by norm_num) (by norm_num)).2.2.2.1

/-- C7 (amended): The like/save toggles reject a missing, non-numeric or
zero identifier with a 400 bad-request before any store access; a negative
identifier, however, passes the JavaScript truthiness check and reaches
the store, where — since store-assigned ids are positive — the post lookup
or the foreign-key check fails instead, and the whole store (in particular
the engagement tables) is left unchanged: no engagement row is ever
created or deleted for a non-positive or non-numeric identifier. -/
theorem toggle_validation_guard (s : Store) :
    (∀ (pRaw uRaw : JsNum) (now : Int),
      jsTruthy pRaw = false ∨ jsTruthy uRaw = false →
        likeHandler s pRaw uRaw now
            = (.failure 400 "postId and userId are required", s) ∧
        saveHandler s pRaw uRaw now
            = (.failure 400 "Post id and user id are required!", s)) ∧
    (PositiveIds s → ∀ (p u now : Int), p ≤ 0 ∨ u ≤ 0 →
      (likeHandler s (some p) (some u) now).2 = s ∧
      (saveHandler s (some p) (some u) now).2 = s) := by
  have hval : ∀ (pRaw uRaw : JsNum) (now : Int),
      jsTruthy pRaw = false ∨ jsTruthy uRaw = false →
        likeHandler s pRaw uRaw now
            = (.failure 400 "postId and userId are required", s) ∧
        saveHandler s pRaw uRaw now
            = (.failure 400 "Post id and user id are required!", s) := by
    intro pRaw uRaw now h
    have hc : (!jsTruthy pRaw || !jsTruthy uRaw) = true := by
      rcases h with h | h <;> simp [h]
    constructor
    · unfold likeHandler likeBody
      simp [hc, pure, Except.pure]
    · unfold saveHandler saveBody
      simp [hc, pure, Except.pure]
  refine ⟨hval, fun hpos p u now h => ?_⟩
  by_cases hp0 : p = 0
  · have := hval (some p) (some u) now (.inl (by simp [jsTruthy, hp0]))
    rw [this.1, this.2]
    exact ⟨rfl, rfl⟩
  by_cases hu0 : u = 0
  · have := hval (some p) (some u) now (.inr (by simp [jsTruthy, hu0]))
    rw [this.1, this.2]
    exact ⟨rfl, rfl⟩
  rcases h with hple | hule
  · have hfp : findPost s.posts p = none := by
      rw [findPost, List.find?_eq_none]
      intro x hx
      have := hpos.2.1 x hx
      simp only [beq_iff_eq]
      omega
    constructor
    · unfold likeHandler likeBody
      simp [jsTruthy, jsVal, hp0, hu0, hfp, pure, Except.pure, bind, Except.bind]
    · unfold saveHandler saveBody
      simp [jsTruthy, jsVal, hp0, hu0, hfp, pure, Except.pure, bind, Except.bind]
  · have hfu : findUser s.users u = none := by
      rw [findUser, List.find?_eq_none]
      intro x hx
      have := hpos.1 x hx
      simp only [beq_iff_eq]
      omega
    have hfel : findEng s.likes u p = none := by
      rw [findEng, List.find?_eq_none]
      intro x hx
      have := hpos.2.2.1 x hx
      simp only [Bool.and_eq_true, beq_iff_eq, not_and]
      intro hxu
      omega
    have hfes : findEng s.saves u p = none := by
      rw [findEng, List.find?_eq_none]
      intro x hx
      have := hpos.2.2.2 x hx
      simp only [Bool.and_eq_true, beq_iff_eq, not_and]
      intro hxu
      omega
    constructor
    · unfold likeHandler likeBody
      cases hfp : findPost s.posts p with
      | none => simp [jsTruthy, jsVal, hp0, hu0, hfp, pure, Except.pure, bind, Except.bind]
      | some post => simp [jsTruthy, jsVal, hp0, hu0, hfp, hfel, createEng, hfu, pure, Except.pure, bind, Except.bind]
    · unfold saveHandler saveBody
      cases hfp : findPost s.posts p with
      | none => simp [jsTruthy, jsVal, hp0, hu0, hfp, pure, Except.pure, bind, Except.bind]
      | some post => simp [jsTruthy, jsVal, hp0, hu0, hfp, hfes, createEng, hfu, pure, Except.pure, bind, Except.bind]

/-- Counterexample for C7: `-1` is not a well-formed positive identifier,
yet the like and save toggles do not fail with a 400 bad-request before
the store lookup — the post lookup runs and answers 404. -/
theorem toggle_validation_counterexample :
    (likeHandler baseStore (some (-1)) (some 2) 10).1 = .failure 404 "Post not found" ∧
    (saveHandler baseStore (some (-1)) (some 2) 10).1 = .failure 404 "Post not found!" := by
  decide

/-- Witness for C7: a `NaN` post id is rejected with 400 before any store
access, and a negative post id leaves the store untouched. -/
theorem toggle_validation_guard_witness :
    likeHandler baseStore none (some 2) 10
        = (.failure 400 "postId and userId are required", baseStore) ∧
    (likeHandler baseStore (some (-1)) (some 2) 10).2 = baseStore ∧
    (saveHandler baseStore (some (-1)) (some 2) 10).2 = baseStore := by
  have h := toggle_validation_guard baseStore
  have hb := h.2 (by unfold PositiveIds; exact ⟨by decide, by decide, by decide, by decide⟩)
    (-1) 2 10 (.inl (by norm_num))
  exact ⟨(h.1 none (some 2) 10 (.inl (by decide))).1, hb.1, hb.2⟩

/-- C8 (amended): An unexpected store failure — one that escapes the
handler body after validation — is answered by the share and read handlers
with a 500 server-fault response, but by the like and save toggle handlers
with a 400 client-error response, each carrying the handler's fixed catch
message. -/
theorem catch_status_codes (s : Store) (pRaw uRaw : JsNum) (now : Int) :
    (∀ e, likeBody s pRaw uRaw now = .error e →
      (likeHandler s pRaw uRaw now).1 = .failure 400 "Something went wrong") ∧
    (∀ e, saveBody s pRaw uRaw now = .error e →
      (saveHandler s pRaw uRaw now).1 = .failure 400 "Something went wrong!") ∧
    (∀ e, shareBody s pRaw uRaw now = .error e →
      (shareHandler s pRaw uRaw now).1 = .failure 500 "Failed to load data") ∧
    (∀ e, readBody s pRaw uRaw now = .error e →
      (readHandler s pRaw uRaw now).1 = .failure 500 "Server error") := by
  refine ⟨fun e h => ?_, fun e h => ?_, fun e h => ?_, fun e h => ?_⟩
  · unfold likeHandler
    rw [h]
  · unfold saveHandler
    rw [h]
  · unfold shareHandler
    rw [h]
  · unfold readHandler
    rw [h]

/-- Counterexample for C8: liking post 1 of `baseStore` as the nonexistent
user 7 passes validation and the post lookup, then fails inside the store
(foreign-key violation on the like insert) — an unexpected store failure —
and the like handler reports it with status 400, not 500. -/
theorem catch_status_counterexample :
    likeBody baseStore (some 1) (some 7) 10
        = .error "Foreign key constraint violated on userId" ∧
    (likeHandler baseStore (some 1) (some 7) 10).1
        = .failure 400 "Something went wrong" := by
  exact ⟨rfl, by decide⟩

/-- Witness for C8: the same store failure through the save handler gives
its 400 catch response, and through the share handler gives its 500 catch
response. -/
theorem catch_status_codes_witness :
    (saveHandler baseStore (some 1) (some 7) 10).1
        = .failure 400 "Something went wrong!" ∧
    (shareHandler baseStore (some 1) (some 7) 10).1
        = .failure 500 "Failed to load data" := by
  have h := catch_status_codes baseStore (some 1) (some 7) 10
  exact ⟨h.2.1 "Foreign key constraint violated on userId" rfl,
         h.2.2.1 "Foreign key constraint violated on userId" rfl⟩

/-- Every field of an `omitPassword` object has a key other than
`password` — the rest-spread removed that property. -/
theorem omitPassword_no_password (o : List (String × JVal)) :
    (omitPassword o).all (fun kv => kv.1 != "password") = true := by
  rw [List.all_eq_true]
  intro kv hkv
  exact (List.mem_filter.mp hkv).2

/-- C9: For every successful registration and every successful login (and
vacuously for failures, which carry no user object), the user object in
the response contains no `password` field, for any input credentials and
any hashing/token primitives. -/
theorem auth_responses_omit_password (s : Store) (email username password : String)
    (firstName lastName : Option String) (hash : String → String)
    (genToken : Int → String) (now : Int) (lemail lpassword : String)
    (cmp : String → String → Bool) :
    ((registerHandler s email username password firstName lastName hash
        genToken now).1.userFields.all (fun kv => kv.1 != "password")) = true ∧
    ((loginHandler s lemail lpassword cmp genToken).userFields.all
        (fun kv => kv.1 != "password")) = true := by
  constructor
  · unfold registerHandler
    cases findByEmailOrUsername s.users email username with
    | some u => simp [AuthOut.userFields]
    | none => simpa [AuthOut.userFields] using omitPassword_no_password _
  · unfold loginHandler
    cases findUserByEmail s.users lemail with
    | none => simp [AuthOut.userFields]
    | some user =>
      by_cases hc : cmp lpassword user.password
      · simpa [AuthOut.userFields, hc] using omitPassword_no_password _
      · simp [AuthOut.userFields, hc]

/-- The JavaScript findIndex dedup keeps at most one post per id: any two
entries of its output have distinct ids. -/
theorem jsDedupById_pairwise (l : List PostRec) :
    (jsDedupById l).Pairwise (fun a b => a.id ≠ b.id) := by
  unfold jsDedupById
  rw [List.pairwise_filterMap]
  refine (List.pairwise_lt_range l.length).imp ?_
  intro i j hij
  intro x hx y hy
  cases hli : l[i]? with
  | none => simp [hli] at hx
  | some p =>
    cases hlj : l[j]? with
    | none => simp [hlj] at hy
    | some q =>
      rw [hli] at hx
      rw [hlj] at hy
      by_cases hidx : l.findIdx (fun c => c.id == p.id) = i
      · by_cases hjdx : l.findIdx (fun c => c.id == q.id) = j
        · simp only [hidx, beq_self_eq_true, if_true, Option.mem_def, Option.some.injEq] at hx
          simp only [hjdx, beq_self_eq_true, if_true, Option.mem_def, Option.some.injEq] at hy
          subst hx
          subst hy
          intro hpq
          have hfun : (fun c : PostRec => c.id == p.id) = (fun c : PostRec => c.id == q.id) := by
            funext c
            rw [hpq]
          rw [hfun, hjdx] at hidx
          omega
        · simp [hjdx] at hy
      · simp [hidx] at hx

/-- C10: For every user, the commented-posts listing returns each post at
most once — the result contains no two entries with the same post id —
even when the user commented on a post several times. -/
theorem commented_posts_no_duplicates (s : Store) (userIdRaw : JsNum) :
    (commentedPostsHandler s userIdRaw).postList.Pairwise (fun a b => a.id ≠ b.id) := by
  unfold commentedPostsHandler
  cases h : jsTruthy userIdRaw with
  | false => simp [PostsListOut.postList]
  | true =>
    simp only [h, Bool.not_true, Bool.false_eq_true, if_neg, PostsListOut.postList]
    exact jsDedupById_pairwise _

end BlogApi
